import Mathlib

/-!
Shallow embedding of the betrusted-io com_rs crate (src/lib.rs and src/serdes.rs).

Machine integers (u8, u16, usize) are modelled as Nat; wherever the Rust code
truncates (an `as u16` / `as u8` cast) the model applies the matching
`% 2 ^ w` reduction.  Rust arrays are modelled as lists of Nat, fallible
functions return Except.
-/

/-- One entry of the COM verb table (struct ComSpec in src/lib.rs). -/
structure ComSpec where
  verb : Nat
  w_words : Nat
  r_words : Nat
  response : Bool
deriving Repr, DecidableEq

namespace ComState

/-- ComState::SSID_CHECK from src/lib.rs. -/
def SSID_CHECK : ComSpec := ⟨0x2000, 0, 1, false⟩

/-- ComState::SSID_FETCH from src/lib.rs. -/
def SSID_FETCH : ComSpec := ⟨0x2100, 0, 16 * 6, false⟩

/-- ComState::SSID_FETCH_STR from src/lib.rs. -/
def SSID_FETCH_STR : ComSpec := ⟨0x2101, 0, 34 * 8, false⟩

/-- ComState::WFX_PDS_LINE_SET from src/lib.rs. -/
def WFX_PDS_LINE_SET : ComSpec := ⟨0x2200, 129, 0, false⟩

/-- ComState::WFX_RXSTAT_GET from src/lib.rs. -/
def WFX_RXSTAT_GET : ComSpec := ⟨0x2201, 0, 376 / 2, false⟩

/-- ComState::WFX_FW_REV_GET from src/lib.rs. -/
def WFX_FW_REV_GET : ComSpec := ⟨0x2202, 0, 3, false⟩

/-- ComState::WF200_RESET from src/lib.rs. -/
def WF200_RESET : ComSpec := ⟨0x2203, 1, 0, false⟩

/-- ComState::SSID_SCAN_ON from src/lib.rs. -/
def SSID_SCAN_ON : ComSpec := ⟨0x2204, 0, 0, false⟩

/-- ComState::SSID_SCAN_OFF from src/lib.rs. -/
def SSID_SCAN_OFF : ComSpec := ⟨0x2205, 0, 0, false⟩

/-- ComState::WF200_DEBUG from src/lib.rs. -/
def WF200_DEBUG : ComSpec := ⟨0x2206, 0, 8, false⟩

/-- ComState::WLAN_ON from src/lib.rs. -/
def WLAN_ON : ComSpec := ⟨0x2300, 0, 0, false⟩

/-- ComState::WLAN_OFF from src/lib.rs. -/
def WLAN_OFF : ComSpec := ⟨0x2301, 0, 0, false⟩

/-- ComState::WLAN_SET_SSID from src/lib.rs. -/
def WLAN_SET_SSID : ComSpec := ⟨0x2302, 17, 0, false⟩

/-- ComState::WLAN_SET_PASS from src/lib.rs. -/
def WLAN_SET_PASS : ComSpec := ⟨0x2303, 33, 0, false⟩

/-- ComState::WLAN_JOIN from src/lib.rs. -/
def WLAN_JOIN : ComSpec := ⟨0x2304, 0, 0, false⟩

/-- ComState::WLAN_LEAVE from src/lib.rs. -/
def WLAN_LEAVE : ComSpec := ⟨0x2305, 0, 0, false⟩

/-- ComState::WLAN_STATUS from src/lib.rs. -/
def WLAN_STATUS : ComSpec := ⟨0x2306, 0, 33, false⟩

/-- ComState::WLAN_GET_IPV4_CONF from src/lib.rs. -/
def WLAN_GET_IPV4_CONF : ComSpec := ⟨0x2307, 0, 14, false⟩

/-- ComState::WLAN_GET_ERRCOUNTS from src/lib.rs. -/
def WLAN_GET_ERRCOUNTS : ComSpec := ⟨0x2308, 0, 4, false⟩

/-- ComState::WLAN_BIN_STATUS from src/lib.rs. -/
def WLAN_BIN_STATUS : ComSpec := ⟨0x2309, 0, 2 + 14 + 17, false⟩

/-- ComState::WLAN_GET_RSSI from src/lib.rs. -/
def WLAN_GET_RSSI : ComSpec := ⟨0x230A, 0, 1, false⟩

/-- ComState::WLAN_SYNC_STATE from src/lib.rs. -/
def WLAN_SYNC_STATE : ComSpec := ⟨0x230B, 0, 2, false⟩

/-- ComState::FLASH_WAITACK from src/lib.rs. -/
def FLASH_WAITACK : ComSpec := ⟨0x3000, 0, 1, false⟩

/-- ComState::FLASH_ACK from src/lib.rs. -/
def FLASH_ACK : ComSpec := ⟨0x3CC3, 0, 0, true⟩

/-- ComState::FLASH_ERASE from src/lib.rs. -/
def FLASH_ERASE : ComSpec := ⟨0x3200, 4, 0, false⟩

/-- ComState::FLASH_PP from src/lib.rs. -/
def FLASH_PP : ComSpec := ⟨0x3300, 130, 0, false⟩

/-- ComState::FLASH_LOCK from src/lib.rs. -/
def FLASH_LOCK : ComSpec := ⟨0x3400, 0, 0, false⟩

/-- ComState::FLASH_UNLOCK from src/lib.rs. -/
def FLASH_UNLOCK : ComSpec := ⟨0x3434, 0, 0, false⟩

/-- ComState::LOOP_TEST from src/lib.rs. -/
def LOOP_TEST : ComSpec := ⟨0x4000, 0, 1, false⟩

/-- ComState::EC_GIT_REV from src/lib.rs. -/
def EC_GIT_REV : ComSpec := ⟨0x4001, 0, 3, false⟩

/-- ComState::UPTIME from src/lib.rs. -/
def UPTIME : ComSpec := ⟨0x4002, 0, 4, false⟩

/-- ComState::TRNG_SEED from src/lib.rs. -/
def TRNG_SEED : ComSpec := ⟨0x4003, 8, 0, false⟩

/-- ComState::EC_SW_TAG from src/lib.rs. -/
def EC_SW_TAG : ComSpec := ⟨0x4004, 0, 16, false⟩

/-- ComState::CHG_START from src/lib.rs. -/
def CHG_START : ComSpec := ⟨0x5A00, 0, 0, false⟩

/-- ComState::CHG_BOOST_ON from src/lib.rs. -/
def CHG_BOOST_ON : ComSpec := ⟨0x5ABB, 0, 0, false⟩

/-- ComState::CHG_BOOST_OFF from src/lib.rs. -/
def CHG_BOOST_OFF : ComSpec := ⟨0x5AFE, 0, 0, false⟩

/-- ComState::BL_START from src/lib.rs. -/
def BL_START : ComSpec := ⟨0x6800, 0, 0, false⟩

/-- ComState::BL_END from src/lib.rs. -/
def BL_END : ComSpec := ⟨0x6BFF, 0, 0, false⟩

/-- ComState::GAS_GAUGE from src/lib.rs. -/
def GAS_GAUGE : ComSpec := ⟨0x7000, 0, 4, false⟩

/-- ComState::GG_FACTORY_CAPACITY from src/lib.rs. -/
def GG_FACTORY_CAPACITY : ComSpec := ⟨0x7676, 1, 1, false⟩

/-- ComState::GG_GET_CAPACITY from src/lib.rs. -/
def GG_GET_CAPACITY : ComSpec := ⟨0x7600, 0, 1, false⟩

/-- ComState::GG_DEBUG from src/lib.rs. -/
def GG_DEBUG : ComSpec := ⟨0x7200, 0, 1, false⟩

/-- ComState::GG_SOC from src/lib.rs. -/
def GG_SOC : ComSpec := ⟨0x7300, 0, 1, false⟩

/-- ComState::GG_REMAINING from src/lib.rs. -/
def GG_REMAINING : ComSpec := ⟨0x7400, 0, 1, false⟩

/-- ComState::GG_FULL_CAPACITY from src/lib.rs. -/
def GG_FULL_CAPACITY : ComSpec := ⟨0x7402, 0, 1, false⟩

/-- ComState::STAT from src/lib.rs. -/
def STAT : ComSpec := ⟨0x8000, 0, 16, false⟩

/-- ComState::STAT_RETURN from src/lib.rs. -/
def STAT_RETURN : ComSpec := ⟨0x8001, 0, 0, true⟩

/-- ComState::POWER_OFF from src/lib.rs. -/
def POWER_OFF : ComSpec := ⟨0x9000, 0, 1, false⟩

/-- ComState::POWER_CHARGER_STATE from src/lib.rs. -/
def POWER_CHARGER_STATE : ComSpec := ⟨0x9100, 0, 1, false⟩

/-- ComState::POWER_SHIPMODE from src/lib.rs. -/
def POWER_SHIPMODE : ComSpec := ⟨0x9200, 0, 0, false⟩

/-- ComState::GYRO_UPDATE from src/lib.rs. -/
def GYRO_UPDATE : ComSpec := ⟨0xA000, 0, 0, false⟩

/-- ComState::GYRO_READ from src/lib.rs. -/
def GYRO_READ : ComSpec := ⟨0xA100, 0, 4, false⟩

/-- ComState::POLL_USB_CC from src/lib.rs. -/
def POLL_USB_CC : ComSpec := ⟨0xB000, 0, 5, false⟩

/-- ComState::NET_FRAME_FETCH_0 from src/lib.rs. -/
def NET_FRAME_FETCH_0 : ComSpec := ⟨0xC800, 0, 0, false⟩

/-- ComState::NET_FRAME_FETCH_1 from src/lib.rs. -/
def NET_FRAME_FETCH_1 : ComSpec := ⟨0xC801, 0, 1, false⟩

/-- ComState::NET_FRAME_FETCH_2 from src/lib.rs. -/
def NET_FRAME_FETCH_2 : ComSpec := ⟨0xC802, 0, 2, false⟩

/-- ComState::NET_FRAME_FETCH_7FF from src/lib.rs. -/
def NET_FRAME_FETCH_7FF : ComSpec := ⟨0xCFFF, 0, 0x7FF, false⟩

/-- ComState::NET_FRAME_SEND_0 from src/lib.rs. -/
def NET_FRAME_SEND_0 : ComSpec := ⟨0xC000, 0, 0, false⟩

/-- ComState::NET_FRAME_SEND_1 from src/lib.rs. -/
def NET_FRAME_SEND_1 : ComSpec := ⟨0xC001, 1, 0, false⟩

/-- ComState::NET_FRAME_SEND_7FF from src/lib.rs. -/
def NET_FRAME_SEND_7FF : ComSpec := ⟨0xC7FF, 0x7FF, 0, false⟩

/-- ComState::LINK_READ from src/lib.rs. -/
def LINK_READ : ComSpec := ⟨0xF0F0, 0, 0, false⟩

/-- ComState::LINK_SYNC from src/lib.rs. -/
def LINK_SYNC : ComSpec := ⟨0xFFFF, 0, 0, false⟩

/-- ComState::LINK_GET_INTERRUPT from src/lib.rs. -/
def LINK_GET_INTERRUPT : ComSpec := ⟨0xF108, 0, 2, false⟩

/-- ComState::LINK_SET_INTMASK from src/lib.rs. -/
def LINK_SET_INTMASK : ComSpec := ⟨0xF109, 1, 0, false⟩

/-- ComState::LINK_GET_INTMASK from src/lib.rs. -/
def LINK_GET_INTMASK : ComSpec := ⟨0xF10A, 0, 1, false⟩

/-- ComState::LINK_ACK_INTERRUPT from src/lib.rs. -/
def LINK_ACK_INTERRUPT : ComSpec := ⟨0xF10B, 1, 0, false⟩

/-- ComState::ERROR from src/lib.rs. -/
def ERROR : ComSpec := ⟨0xDEAD, 0, 0, true⟩

end ComState

/-- The complete set of ComSpec associated constants declared in impl ComState
(src/lib.rs lines 22-137), in source order. -/
def comStateSpecs : List ComSpec := [
  ComState.SSID_CHECK, ComState.SSID_FETCH, ComState.SSID_FETCH_STR,
  ComState.WFX_PDS_LINE_SET, ComState.WFX_RXSTAT_GET, ComState.WFX_FW_REV_GET,
  ComState.WF200_RESET, ComState.SSID_SCAN_ON, ComState.SSID_SCAN_OFF,
  ComState.WF200_DEBUG,
  ComState.WLAN_ON, ComState.WLAN_OFF, ComState.WLAN_SET_SSID,
  ComState.WLAN_SET_PASS, ComState.WLAN_JOIN, ComState.WLAN_LEAVE,
  ComState.WLAN_STATUS, ComState.WLAN_GET_IPV4_CONF, ComState.WLAN_GET_ERRCOUNTS,
  ComState.WLAN_BIN_STATUS, ComState.WLAN_GET_RSSI, ComState.WLAN_SYNC_STATE,
  ComState.FLASH_WAITACK, ComState.FLASH_ACK, ComState.FLASH_ERASE,
  ComState.FLASH_PP, ComState.FLASH_LOCK, ComState.FLASH_UNLOCK,
  ComState.LOOP_TEST, ComState.EC_GIT_REV, ComState.UPTIME,
  ComState.TRNG_SEED, ComState.EC_SW_TAG,
  ComState.CHG_START, ComState.CHG_BOOST_ON, ComState.CHG_BOOST_OFF,
  ComState.BL_START, ComState.BL_END,
  ComState.GAS_GAUGE, ComState.GG_FACTORY_CAPACITY, ComState.GG_GET_CAPACITY,
  ComState.GG_DEBUG, ComState.GG_SOC, ComState.GG_REMAINING,
  ComState.GG_FULL_CAPACITY,
  ComState.STAT, ComState.STAT_RETURN,
  ComState.POWER_OFF, ComState.POWER_CHARGER_STATE, ComState.POWER_SHIPMODE,
  ComState.GYRO_UPDATE, ComState.GYRO_READ,
  ComState.POLL_USB_CC,
  ComState.NET_FRAME_FETCH_0, ComState.NET_FRAME_FETCH_1,
  ComState.NET_FRAME_FETCH_2, ComState.NET_FRAME_FETCH_7FF,
  ComState.NET_FRAME_SEND_0, ComState.NET_FRAME_SEND_1,
  ComState.NET_FRAME_SEND_7FF,
  ComState.LINK_READ, ComState.LINK_SYNC, ComState.LINK_GET_INTERRUPT,
  ComState.LINK_SET_INTMASK, ComState.LINK_GET_INTMASK,
  ComState.LINK_ACK_INTERRUPT,
  ComState.ERROR]

/-- The NET_FRAME_FETCH_* constants of ComState, in source order. -/
def netFrameFetchSpecs : List ComSpec := [
  ComState.NET_FRAME_FETCH_0, ComState.NET_FRAME_FETCH_1,
  ComState.NET_FRAME_FETCH_2, ComState.NET_FRAME_FETCH_7FF]

/-- The NET_FRAME_SEND_* constants of ComState, in source order. -/
def netFrameSendSpecs : List ComSpec := [
  ComState.NET_FRAME_SEND_0, ComState.NET_FRAME_SEND_1,
  ComState.NET_FRAME_SEND_7FF]

/-- enum LinkState from src/lib.rs (discriminants 0..7 in declaration order). -/
inductive LinkState where
  | Unknown
  | ResetHold
  | Uninitialized
  | Initializing
  | Disconnected
  | Connecting
  | Connected
  | WFXError
deriving Repr, DecidableEq

/-- LinkState::decode_u16 from src/lib.rs: match on the wire integer with
a catch-all arm yielding Unknown. -/
def LinkState.decode_u16 (state : Nat) : LinkState :=
  match state with
  | 0 => LinkState.Unknown
  | 1 => LinkState.ResetHold
  | 2 => LinkState.Uninitialized
  | 3 => LinkState.Initializing
  | 4 => LinkState.Disconnected
  | 5 => LinkState.Connecting
  | 6 => LinkState.Connected
  | 7 => LinkState.WFXError
  | _ => LinkState.Unknown

/-- enum ConnectResult from src/lib.rs (explicit discriminants: Success=0,
NoMatchingAp=1, Aborted=7, Timeout=2, Reject=3, AuthFail=4, Error=5, Pending=6). -/
inductive ConnectResult where
  | Success
  | NoMatchingAp
  | Aborted
  | Timeout
  | Reject
  | AuthFail
  | Error
  | Pending
deriving Repr, DecidableEq

/-- ConnectResult::decode_u16 from src/lib.rs: match on the wire integer with
a catch-all arm yielding Pending. -/
def ConnectResult.decode_u16 (state : Nat) : ConnectResult :=
  match state with
  | 0 => ConnectResult.Success
  | 1 => ConnectResult.NoMatchingAp
  | 2 => ConnectResult.Timeout
  | 3 => ConnectResult.Reject
  | 4 => ConnectResult.AuthFail
  | 5 => ConnectResult.Error
  | 7 => ConnectResult.Aborted
  | _ => ConnectResult.Pending

/-- enum DhcpState (declared identically, with repr(u16) discriminants 0..7,
both in src/lib.rs and in src/serdes.rs). -/
inductive DhcpState where
  | Halted
  | Init
  | Selecting
  | Requesting
  | Bound
  | Renewing
  | Rebinding
  | Invalid
deriving Repr, DecidableEq

/-- The u16 discriminant of a DhcpState value (the Rust cast self.dhcp as u16,
per the repr(u16) discriminants 0..7 of the enum). -/
def DhcpState.toU16 : DhcpState → Nat
  | DhcpState.Halted => 0
  | DhcpState.Init => 1
  | DhcpState.Selecting => 2
  | DhcpState.Requesting => 3
  | DhcpState.Bound => 4
  | DhcpState.Renewing => 5
  | DhcpState.Rebinding => 6
  | DhcpState.Invalid => 7

/-- The match on data[0] inside Ipv4Conf::decode_u16 (src/serdes.rs lines
172-181): wire integer to DhcpState, catch-all arm yielding Invalid. -/
def Ipv4Conf.decodeDhcp (state : Nat) : DhcpState :=
  match state with
  | 0 => DhcpState.Halted
  | 1 => DhcpState.Init
  | 2 => DhcpState.Selecting
  | 3 => DhcpState.Requesting
  | 4 => DhcpState.Bound
  | 5 => DhcpState.Renewing
  | 6 => DhcpState.Rebinding
  | _ => DhcpState.Invalid

/-- struct Ipv4Conf from src/serdes.rs.  Rust arrays [u8; 6] and [u8; 4] are
modelled as lists of Nat; theorems carry the length and byte-range bounds the
Rust types enforce. -/
structure Ipv4Conf where
  dhcp : DhcpState
  mac : List Nat
  addr : List Nat
  gtwy : List Nat
  mask : List Nat
  dns1 : List Nat
  dns2 : List Nat
deriving Repr, DecidableEq

/-- Ipv4Conf::encode_u16 from src/serdes.rs: 14 words (the array length is
ComState::WLAN_GET_IPV4_CONF.r_words), each word packing two bytes as
low ||| high <<< 8.  Array indexing mac[i] (total in Rust because the array
length is part of the type) is modelled with getD. -/
def Ipv4Conf.encode_u16 (c : Ipv4Conf) : List Nat :=
  [c.dhcp.toU16,
   c.mac.getD 0 0 ||| c.mac.getD 1 0 <<< 8,
   c.mac.getD 2 0 ||| c.mac.getD 3 0 <<< 8,
   c.mac.getD 4 0 ||| c.mac.getD 5 0 <<< 8,
   c.addr.getD 0 0 ||| c.addr.getD 1 0 <<< 8,
   c.addr.getD 2 0 ||| c.addr.getD 3 0 <<< 8,
   c.gtwy.getD 0 0 ||| c.gtwy.getD 1 0 <<< 8,
   c.gtwy.getD 2 0 ||| c.gtwy.getD 3 0 <<< 8,
   c.mask.getD 0 0 ||| c.mask.getD 1 0 <<< 8,
   c.mask.getD 2 0 ||| c.mask.getD 3 0 <<< 8,
   c.dns1.getD 0 0 ||| c.dns1.getD 1 0 <<< 8,
   c.dns1.getD 2 0 ||| c.dns1.getD 3 0 <<< 8,
   c.dns2.getD 0 0 ||| c.dns2.getD 1 0 <<< 8,
   c.dns2.getD 2 0 ||| c.dns2.getD 3 0 <<< 8]

/-- Ipv4Conf::decode_u16 from src/serdes.rs: data[i] as u8 is (word) % 256 and
(data[i] >> 8) as u8 is (word >>> 8) % 256. -/
def Ipv4Conf.decode_u16 (data : List Nat) : Ipv4Conf :=
  { dhcp := Ipv4Conf.decodeDhcp (data.getD 0 0)
    mac := [data.getD 1 0 % 256, (data.getD 1 0 >>> 8) % 256,
            data.getD 2 0 % 256, (data.getD 2 0 >>> 8) % 256,
            data.getD 3 0 % 256, (data.getD 3 0 >>> 8) % 256]
    addr := [data.getD 4 0 % 256, (data.getD 4 0 >>> 8) % 256,
             data.getD 5 0 % 256, (data.getD 5 0 >>> 8) % 256]
    gtwy := [data.getD 6 0 % 256, (data.getD 6 0 >>> 8) % 256,
             data.getD 7 0 % 256, (data.getD 7 0 >>> 8) % 256]
    mask := [data.getD 8 0 % 256, (data.getD 8 0 >>> 8) % 256,
             data.getD 9 0 % 256, (data.getD 9 0 >>> 8) % 256]
    dns1 := [data.getD 10 0 % 256, (data.getD 10 0 >>> 8) % 256,
             data.getD 11 0 % 256, (data.getD 11 0 >>> 8) % 256]
    dns2 := [data.getD 12 0 % 256, (data.getD 12 0 >>> 8) % 256,
             data.getD 13 0 % 256, (data.getD 13 0 >>> 8) % 256] }

/-- enum SerdesError from src/serdes.rs. -/
inductive SerdesError where
  | StrLenTooBig
  | Utf8Decode
deriving Repr, DecidableEq

/-- The fill loop of StringSer::encode (src/serdes.rs lines 44-61), with the
destination iterator represented by the list of remaining buffer words (their
current contents) and the source chunks_exact(2) iterator by the list of
remaining input bytes.  A full 2-byte chunk is packed as
u16::from_le_bytes, giving low + 256 * high; a trailing odd byte is written
with a zero high byte and the loop breaks; when the source is exhausted the
loop breaks, leaving the remaining words at their previous contents. -/
def fillLoop : List Nat → List Nat → List Nat
  | [], _ => []
  | dests, [] => dests
  | _ :: dests, [a] => a :: dests
  | _ :: dests, a :: b :: rest => (a + 256 * b) :: fillLoop dests rest

/-- StringSer::encode (src/serdes.rs lines 36-63) over an encoder whose buffer
currently holds u16_buf (a fresh encoder holds U16_LEN zero words).  Returns
the Result (Ok carries the encoder buffer, as the Rust &[u16; U16_LEN] does)
together with the encoder buffer after the call.  The length word is written
through an as u16 cast, hence the % 65536. -/
def StringSer.encode (U16_LEN : Nat) (u16_buf : List Nat) (s : List Nat) :
    Except SerdesError (List Nat) × List Nat :=
  if s.length > 2 * (U16_LEN - 1) then
    (Except.error SerdesError.StrLenTooBig, u16_buf)
  else
    match u16_buf with
    | [] => (Except.ok [], [])
    | _ :: rest =>
      (Except.ok (s.length % 65536 :: fillLoop rest s),
       s.length % 65536 :: fillLoop rest s)

/-- A UTF-8 continuation byte (10xxxxxx). -/
def isCont (b : Nat) : Bool := 0x80 ≤ b && b ≤ 0xBF

/-- Modelled from the spec: the byte-level automaton for standard UTF-8
validity per RFC 3629 (the success condition of core::str::from_utf8, which
is not part of this repository).  The state is the number of pending
continuation bytes together with the allowed range lo..hi for the next byte
(the range is 80..BF except right after E0/ED/F0/F4 lead bytes, which
restrict their first continuation to exclude overlong forms, surrogates and
code points above U+10FFFF). -/
def utf8Aux : Nat → Nat → Nat → List Nat → Bool
  | 0, _, _, [] => true
  | _ + 1, _, _, [] => false
  | 0, _, _, b :: rest =>
    if b ≤ 0x7F then utf8Aux 0 0 0 rest
    else if 0xC2 ≤ b && b ≤ 0xDF then utf8Aux 1 0x80 0xBF rest
    else if b == 0xE0 then utf8Aux 2 0xA0 0xBF rest
    else if (0xE1 ≤ b && b ≤ 0xEC) || b == 0xEE || b == 0xEF then
      utf8Aux 2 0x80 0xBF rest
    else if b == 0xED then utf8Aux 2 0x80 0x9F rest
    else if b == 0xF0 then utf8Aux 3 0x90 0xBF rest
    else if 0xF1 ≤ b && b ≤ 0xF3 then utf8Aux 3 0x80 0xBF rest
    else if b == 0xF4 then utf8Aux 3 0x80 0x8F rest
    else false
  | p + 1, lo, hi, b :: rest =>
    if lo ≤ b && b ≤ hi then utf8Aux p 0x80 0xBF rest else false

/-- Modelled from the spec: a byte sequence is valid UTF-8 when the automaton
accepts it from the start state. -/
def isValidUtf8 (l : List Nat) : Bool := utf8Aux 0 0 0 l

/-- The byte unpack loop of StringDes::decode_u16 (src/serdes.rs lines
95-104) writing into a fresh (zeroed) byte buffer of the given remaining
capacity: each source word contributes its two little-endian bytes
(src.to_le_bytes) while destination slots remain; with one slot left only the
low byte is kept; once the destination is full remaining source words are
ignored; if the source runs out first the remaining fresh slots stay zero. -/
def unpackLoop : Nat → List Nat → List Nat
  | 0, _ => []
  | d + 1, [] => List.replicate (d + 1) 0
  | 1, w :: _ => [w % 256]
  | d + 2, w :: ws => w % 256 :: (w >>> 8) % 256 :: unpackLoop d ws

/-- StringDes::as_str (src/serdes.rs lines 109-119) for a decoder whose
stored length is len and whose byte buffer is u8_buf: the string "as bytes"
is the take len prefix, validated as UTF-8. -/
def StringDes.as_str (U16_LEN : Nat) (len : Nat) (u8_buf : List Nat) :
    Except SerdesError (List Nat) :=
  if len > 2 * (U16_LEN - 1) then Except.error SerdesError.StrLenTooBig
  else if isValidUtf8 (u8_buf.take len) then Except.ok (u8_buf.take len)
  else Except.error SerdesError.Utf8Decode

/-- StringDes::decode_u16 (src/serdes.rs lines 86-106) on a fresh decoder
(len = 0, zeroed byte buffer of U8_LEN bytes): read word 0 as the claimed
length, reject it if above U8_LEN, unpack the remaining words and finish via
as_str. -/
def StringDes.decode_u16 (U16_LEN U8_LEN : Nat) (u16_buf : List Nat) :
    Except SerdesError (List Nat) :=
  match u16_buf with
  | [] => StringDes.as_str U16_LEN 0 (List.replicate U8_LEN 0)
  | len0 :: rest =>
    if len0 ≤ U8_LEN then
      StringDes.as_str U16_LEN len0 (unpackLoop U8_LEN rest)
    else Except.error SerdesError.StrLenTooBig

/-- The word sequence the encode fill loop produces for the consumed input:
bytes packed two at a time little-endian, an odd trailing byte alone. -/
def packLE : List Nat → List Nat
  | [] => []
  | [a] => [a]
  | a :: b :: rest => (a + 256 * b) :: packLE rest

/-- The little-endian byte stream of a word sequence: low byte then high byte
of each word. -/
def leBytes : List Nat → List Nat
  | [] => []
  | w :: ws => w % 256 :: (w >>> 8) % 256 :: leBytes ws

/-- Bitwise or of a value below 2 ^ i with a multiple of 2 ^ i is addition. -/
theorem lor_two_pow_mul (i : Nat) : ∀ lo hi : Nat, lo < 2 ^ i →
    lo ||| 2 ^ i * hi = lo + 2 ^ i * hi := by
  induction i with
  | zero =>
    intro lo hi h
    have h0 : lo = 0 := by omega
    subst h0
    simp
  | succ i ih =>
    intro lo hi h
    have hpow : 2 ^ (i + 1) = 2 * 2 ^ i := by rw [Nat.pow_succ]; ring
    have hbit : Nat.bit (decide (lo % 2 = 1)) (lo >>> 1) = lo :=
      Nat.bit_decide_mod_two_eq_one_shiftRight_one lo
    have hfalse : Nat.bit false (2 ^ i * hi) = 2 ^ (i + 1) * hi := by
      simp [Nat.bit_val, hpow]
      ring
    have hlt : lo >>> 1 < 2 ^ i := by
      rw [Nat.shiftRight_one]
      omega
    have hrec := ih (lo >>> 1) hi hlt
    have key : Nat.bit (decide (lo % 2 = 1)) (lo >>> 1) ||| Nat.bit false (2 ^ i * hi)
        = Nat.bit (decide (lo % 2 = 1)) (lo >>> 1 ||| 2 ^ i * hi) := by
      rw [Nat.lor_bit, Bool.or_false]
    rw [hbit, hfalse, hrec] at key
    have h2K : 2 ^ (i + 1) * hi = 2 * (2 ^ i * hi) := by rw [hpow]; ring
    rw [key, Nat.bit_val, h2K]
    generalize 2 ^ i * hi = K
    rcases Nat.mod_two_eq_zero_or_one lo with h2 | h2 <;>
      simp [h2, Nat.shiftRight_one] <;> omega

/-- Little-endian byte packing lo ||| hi <<< 8 is lo + 256 * hi. -/
theorem pack_le_eq (lo hi : Nat) (h : lo < 256) : lo ||| hi <<< 8 = lo + 256 * hi := by
  have h256 : (2 : Nat) ^ 8 = 256 := by norm_num
  have h8 : hi <<< 8 = 2 ^ 8 * hi := by rw [Nat.shiftLeft_eq]; ring
  rw [h8, lor_two_pow_mul 8 lo hi (by omega), h256]

/-- The low byte of a packed word is the first byte. -/
theorem pack_mod_256 (lo hi : Nat) (hlo : lo < 256) :
    (lo ||| hi <<< 8) % 256 = lo := by
  rw [pack_le_eq lo hi hlo]
  omega

/-- The high byte of a packed word is the second byte. -/
theorem pack_shift_mod (lo hi : Nat) (hlo : lo < 256) (hhi : hi < 256) :
    ((lo ||| hi <<< 8) >>> 8) % 256 = hi := by
  have h256 : (2 : Nat) ^ 8 = 256 := by norm_num
  rw [pack_le_eq lo hi hlo, Nat.shiftRight_eq_div_pow, h256]
  omega

/-- Decoding the u16 discriminant of any DhcpState yields the same state. -/
theorem decodeDhcp_toU16 (d : DhcpState) : Ipv4Conf.decodeDhcp d.toU16 = d := by
  cases d <;> rfl


/-- The fill loop consumes two bytes per word, one word for an odd trailing byte. -/
theorem packLE_length : ∀ s : List Nat, (packLE s).length = (s.length + 1) / 2
  | [] => by simp [packLE]
  | [a] => by simp [packLE]
  | a :: b :: rest => by
    have ih := packLE_length rest
    simp [packLE, ih]
    omega

/-- On a fresh (zeroed) buffer with enough room, the fill loop writes the
packed words followed by the untouched zero words. -/
theorem fillLoop_replicate : ∀ (s : List Nat) (d : Nat), (s.length + 1) / 2 ≤ d →
    fillLoop (List.replicate d 0) s = packLE s ++ List.replicate (d - (s.length + 1) / 2) 0
  | [], d, _ => by
    cases d with
    | zero => simp [fillLoop, packLE]
    | succ d => simp [List.replicate_succ, fillLoop, packLE]
  | [a], d, h => by
    simp only [List.length_cons, List.length_nil] at h
    obtain ⟨d', rfl⟩ : ∃ d', d = d' + 1 := ⟨d - 1, by omega⟩
    simp [List.replicate_succ, fillLoop, packLE]
  | a :: b :: rest, d, h => by
    simp only [List.length_cons] at h
    obtain ⟨d', rfl⟩ : ∃ d', d = d' + 1 := ⟨d - 1, by omega⟩
    have ih := fillLoop_replicate rest d' (by omega)
    rw [List.replicate_succ]
    show (a + 256 * b) :: fillLoop (List.replicate d' 0) rest = _
    rw [ih]
    show (a + 256 * b) :: (packLE rest ++ _) = ((a + 256 * b) :: packLE rest) ++ _
    rw [List.cons_append]
    have hc : d' - (rest.length + 1) / 2 = d' + 1 - (rest.length + 1 + 1 + 1) / 2 := by
      omega
    rw [hc]
    simp

/-- With byte capacity exactly twice the word count, the decode unpack loop
produces precisely the little-endian byte stream of the words. -/
theorem unpackLoop_eq_leBytes : ∀ ws : List Nat, unpackLoop (2 * ws.length) ws = leBytes ws
  | [] => by simp [unpackLoop, leBytes]
  | w :: ws => by
    have ih := unpackLoop_eq_leBytes ws
    have h2 : 2 * (w :: ws).length = 2 * ws.length + 2 := by simp; ring
    rw [h2]
    show w % 256 :: (w >>> 8) % 256 :: unpackLoop (2 * ws.length) ws = _
    rw [ih]
    rfl

/-- The little-endian byte stream of an appended word sequence. -/
theorem leBytes_append : ∀ xs ys : List Nat, leBytes (xs ++ ys) = leBytes xs ++ leBytes ys
  | [], ys => by simp [leBytes]
  | x :: xs, ys => by
    have ih := leBytes_append xs ys
    simp [leBytes, ih]

/-- Zero words unpack to zero bytes. -/
theorem leBytes_replicate_zero : ∀ k : Nat, leBytes (List.replicate k 0) = List.replicate (2 * k) 0
  | 0 => by simp [leBytes]
  | k + 1 => by
    have ih := leBytes_replicate_zero k
    rw [List.replicate_succ]
    show (0 : Nat) % 256 :: (0 >>> 8) % 256 :: leBytes (List.replicate k 0) = _
    rw [ih]
    have h2 : 2 * (k + 1) = 2 * k + 1 + 1 := by ring
    rw [h2, List.replicate_succ, List.replicate_succ]
    rfl


/-- Unpacking the packed words of a byte sequence and truncating to its
length recovers the byte sequence. -/
theorem leBytes_packLE_take : ∀ s : List Nat, (∀ b ∈ s, b < 256) →
    (leBytes (packLE s)).take s.length = s
  | [], _ => by simp
  | [a], h => by
    have ha : a < 256 := h a (by simp)
    show [a % 256] = [a]
    rw [Nat.mod_eq_of_lt ha]
  | a :: b :: rest, h => by
    have ha : a < 256 := h a (by simp)
    have hb : b < 256 := h b (by simp)
    have ih := leBytes_packLE_take rest (fun x hx => h x (by simp [hx]))
    show (a + 256 * b) % 256 :: ((a + 256 * b) >>> 8) % 256 ::
        (leBytes (packLE rest)).take rest.length = a :: b :: rest
    rw [ih]
    have h1 : (a + 256 * b) % 256 = a := by omega
    have h2 : ((a + 256 * b) >>> 8) % 256 = b := by
      rw [Nat.shiftRight_eq_div_pow]
      have h256 : (2 : Nat) ^ 8 = 256 := by norm_num
      rw [h256]
      omega
    rw [h1, h2]

/-- Each word contributes two bytes to the little-endian byte stream. -/
theorem leBytes_length : ∀ ws : List Nat, (leBytes ws).length = 2 * ws.length
  | [] => by simp [leBytes]
  | w :: ws => by
    have ih := leBytes_length ws
    simp [leBytes, ih]
    ring

/-- getD on an append reads the left list below its length. -/
theorem getD_append_left0 : ∀ (l1 l2 : List Nat) (i : Nat), i < l1.length →
    (l1 ++ l2).getD i 0 = l1.getD i 0
  | [], _, i, h => by simp at h
  | x :: l1, l2, 0, _ => by simp
  | x :: l1, l2, i + 1, h => by
    have ih := getD_append_left0 l1 l2 i (by simp only [List.length_cons] at h; omega)
    simp only [List.cons_append, List.getD_cons_succ]
    exact ih

/-- getD on an append reads the right list from its length on. -/
theorem getD_append_right0 : ∀ (l1 l2 : List Nat) (i : Nat), l1.length ≤ i →
    (l1 ++ l2).getD i 0 = l2.getD (i - l1.length) 0
  | [], l2, i, _ => by simp
  | x :: l1, l2, 0, h => by simp at h
  | x :: l1, l2, i + 1, h => by
    have ih := getD_append_right0 l1 l2 i (by simp only [List.length_cons] at h; omega)
    simp only [List.cons_append, List.getD_cons_succ]
    rw [ih]
    have hc : i - l1.length = i + 1 - (x :: l1).length := by
      simp only [List.length_cons]
      omega
    rw [hc]

/-- getD of a zero-filled list is zero at every index. -/
theorem getD_replicate_zero : ∀ (k i : Nat), (List.replicate k (0 : Nat)).getD i 0 = 0
  | 0, i => by simp
  | k + 1, 0 => by simp [List.replicate_succ]
  | k + 1, i + 1 => by
    rw [List.replicate_succ]
    simp only [List.getD_cons_succ]
    exact getD_replicate_zero k i

/-- Word k of the packed form holds bytes 2k (low) and 2k+1 (high). -/
theorem packLE_getD_pair : ∀ (s : List Nat) (i : Nat), 2 * i + 1 < s.length →
    (packLE s).getD i 0 = s.getD (2 * i) 0 + 256 * s.getD (2 * i + 1) 0
  | [], i, h => by simp at h
  | [a], i, h => by simp only [List.length_cons, List.length_nil] at h; omega
  | a :: b :: rest, 0, h => by simp [packLE]
  | a :: b :: rest, i + 1, h => by
    have ih := packLE_getD_pair rest i (by simp only [List.length_cons] at h; omega)
    show (packLE rest).getD i 0 = _
    have h1 : 2 * (i + 1) = 2 * i + 1 + 1 := by ring
    rw [h1]
    simp only [List.getD_cons_succ]
    exact ih

/-- For an odd-length input the final packed word holds the last byte. -/
theorem packLE_getD_last : ∀ s : List Nat, s.length % 2 = 1 →
    (packLE s).getD (s.length / 2) 0 = s.getD (s.length - 1) 0
  | [], h => by simp at h
  | [a], _ => by simp [packLE]
  | a :: b :: rest, h => by
    have hodd : rest.length % 2 = 1 := by simp only [List.length_cons] at h; omega
    have ih := packLE_getD_last rest hodd
    have hlen : (a :: b :: rest).length = rest.length + 2 := by simp
    rw [hlen]
    have h2 : (rest.length + 2) / 2 = rest.length / 2 + 1 := by omega
    rw [h2]
    show (packLE rest).getD (rest.length / 2) 0 = _
    rw [ih]
    have h3 : rest.length + 2 - 1 = rest.length - 1 + 1 + 1 := by omega
    rw [h3]
    simp only [List.getD_cons_succ]

/-- StringSer::encode on a fresh (zeroed) encoder with an in-range input:
the length word (through the as u16 cast) followed by the fill loop. -/
theorem encode_fresh (n' : Nat) (s : List Nat) (hlen : s.length ≤ 2 * n') :
    StringSer.encode (n' + 1) (List.replicate (n' + 1) 0) s
      = (Except.ok (s.length % 65536 :: fillLoop (List.replicate n' 0) s),
         s.length % 65536 :: fillLoop (List.replicate n' 0) s) := by
  rw [List.replicate_succ]
  unfold StringSer.encode
  rw [if_neg (by omega)]

/-- C1 (amended): for every U16_LEN at least 1 and every valid UTF-8 byte
sequence s of length at most 2*(U16_LEN-1) and below 65536 (the amendment the
as u16 cast of the length word forces), StringSer::encode on a fresh encoder
succeeds, returning its buffer, and StringDes::decode_u16 of that buffer on a
fresh decoder with U8_LEN = 2*(U16_LEN-1) returns Ok of exactly s. -/
theorem c1_string_roundtrip (n : Nat) (s : List Nat) (hn : 1 ≤ n)
    (hb : ∀ b ∈ s, b < 256) (hv : isValidUtf8 s = true)
    (hlen : s.length ≤ 2 * (n - 1)) (hsmall : s.length < 65536) :
    (StringSer.encode n (List.replicate n 0) s).1
      = Except.ok ((StringSer.encode n (List.replicate n 0) s).2) ∧
    StringDes.decode_u16 n (2 * (n - 1))
      ((StringSer.encode n (List.replicate n 0) s).2) = Except.ok s := by
  obtain ⟨n', rfl⟩ : ∃ n', n = n' + 1 := ⟨n - 1, by omega⟩
  have hlen' : s.length ≤ 2 * n' := by omega
  have henc := encode_fresh n' s hlen'
  have hmod : s.length % 65536 = s.length := Nat.mod_eq_of_lt hsmall
  rw [henc, hmod]
  simp only [Nat.add_sub_cancel]
  set T := fillLoop (List.replicate n' 0) s with hTdef
  have hT : T = packLE s ++ List.replicate (n' - (s.length + 1) / 2) 0 :=
    fillLoop_replicate s n' (by omega)
  have hTlen : T.length = n' := by
    rw [hT]
    simp [packLE_length]
    omega
  have hunp := unpackLoop_eq_leBytes T
  rw [hTlen] at hunp
  have hple : (leBytes (packLE s)).length = 2 * ((s.length + 1) / 2) := by
    rw [leBytes_length, packLE_length]
  have hbytes : (leBytes T).take s.length = s := by
    rw [hT, leBytes_append, leBytes_replicate_zero,
      List.take_append_eq_append_take]
    have h0 : s.length - (leBytes (packLE s)).length = 0 := by
      rw [hple]
      omega
    rw [h0]
    simp [leBytes_packLE_take s hb]
  refine ⟨trivial, ?_⟩
  show (if s.length ≤ 2 * n' then
      StringDes.as_str (n' + 1) s.length (unpackLoop (2 * n') T)
    else Except.error SerdesError.StrLenTooBig) = Except.ok s
  rw [if_pos hlen', hunp]
  unfold StringDes.as_str
  rw [if_neg (by omega), hbytes, hv]
  simp

/-- Witness for C1: the roundtrip theorem applied at U16_LEN = 4 and the
5-byte ASCII string short. -/
theorem c1_string_roundtrip_witness :
    StringDes.decode_u16 4 (2 * (4 - 1))
      ((StringSer.encode 4 (List.replicate 4 0) [115, 104, 111, 114, 116]).2)
      = Except.ok [115, 104, 111, 114, 116] :=
  (c1_string_roundtrip 4 [115, 104, 111, 114, 116] (by decide) (by decide)
    (by decide) (by decide) (by decide)).2

/-- C3: for every string longer than 2*(U16_LEN-1) bytes, StringSer::encode
returns the StrLenTooBig error and leaves the encoder buffer exactly as it
was before the call, whatever it held. -/
theorem c3_encode_too_long (n : Nat) (u16_buf s : List Nat) (_hn : 1 ≤ n)
    (h : 2 * (n - 1) < s.length) :
    StringSer.encode n u16_buf s = (Except.error SerdesError.StrLenTooBig, u16_buf) := by
  unfold StringSer.encode
  rw [if_pos (by omega)]

/-- Witness for C3: a 7-byte string against capacity 4 (max 6 bytes), on a
buffer holding prior data, errors and leaves the buffer unchanged. -/
theorem c3_encode_too_long_witness :
    StringSer.encode 4 [11, 22, 33, 44] [1, 2, 3, 4, 5, 6, 7]
      = (Except.error SerdesError.StrLenTooBig, [11, 22, 33, 44]) :=
  c3_encode_too_long 4 [11, 22, 33, 44] [1, 2, 3, 4, 5, 6, 7] (by decide) (by decide)

/-- C4: StringDes::decode_u16 on a fresh decoder classifies every U16_LEN-word
input buffer exactly: a claimed length above 2*(U16_LEN-1) fails with
StrLenTooBig; otherwise the first L bytes of the little-endian byte stream of
the remaining words are validated, failing with Utf8Decode when invalid and
returning exactly those L bytes when valid. -/
theorem c4_decode_classification (len0 : Nat) (rest : List Nat)
    (_hlen0 : len0 < 65536) (_hrest : ∀ w ∈ rest, w < 65536) :
    (2 * rest.length < len0 →
      StringDes.decode_u16 (rest.length + 1) (2 * rest.length) (len0 :: rest)
        = Except.error SerdesError.StrLenTooBig) ∧
    (len0 ≤ 2 * rest.length → isValidUtf8 ((leBytes rest).take len0) = false →
      StringDes.decode_u16 (rest.length + 1) (2 * rest.length) (len0 :: rest)
        = Except.error SerdesError.Utf8Decode) ∧
    (len0 ≤ 2 * rest.length → isValidUtf8 ((leBytes rest).take len0) = true →
      StringDes.decode_u16 (rest.length + 1) (2 * rest.length) (len0 :: rest)
        = Except.ok ((leBytes rest).take len0)) := by
  have hunp := unpackLoop_eq_leBytes rest
  refine ⟨?_, ?_, ?_⟩
  · intro hgt
    show (if len0 ≤ 2 * rest.length then
        StringDes.as_str (rest.length + 1) len0 (unpackLoop (2 * rest.length) rest)
      else Except.error SerdesError.StrLenTooBig) = _
    rw [if_neg (by omega)]
  · intro hle hbad
    show (if len0 ≤ 2 * rest.length then
        StringDes.as_str (rest.length + 1) len0 (unpackLoop (2 * rest.length) rest)
      else Except.error SerdesError.StrLenTooBig) = _
    rw [if_pos hle, hunp]
    unfold StringDes.as_str
    rw [if_neg (by simp only [Nat.add_sub_cancel]; omega), hbad]
    simp
  · intro hle hgood
    show (if len0 ≤ 2 * rest.length then
        StringDes.as_str (rest.length + 1) len0 (unpackLoop (2 * rest.length) rest)
      else Except.error SerdesError.StrLenTooBig) = _
    rw [if_pos hle, hunp]
    unfold StringDes.as_str
    rw [if_neg (by simp only [Nat.add_sub_cancel]; omega), hgood]
    simp

/-- Witness for C4: the three classification arms at concrete 4-word buffers:
an oversized length 7, a non-UTF-8 payload (lead byte C3 with no valid
continuation), and the valid encoding of short. -/
theorem c4_decode_classification_witness :
    StringDes.decode_u16 4 (2 * 3) [7, 0, 0, 0] = Except.error SerdesError.StrLenTooBig ∧
    StringDes.decode_u16 4 (2 * 3) [2, 0xFFC3, 0, 0] = Except.error SerdesError.Utf8Decode ∧
    StringDes.decode_u16 4 (2 * 3) [5, 26739, 29295, 116]
      = Except.ok [115, 104, 111, 114, 116] := by
  refine ⟨(c4_decode_classification 7 [0, 0, 0] (by decide) (by decide)).1 (by decide),
    ?_, ?_⟩
  · have h := (c4_decode_classification 2 [0xFFC3, 0, 0] (by decide) (by decide)).2.1
      (by decide) (by decide)
    exact h
  · have h := (c4_decode_classification 5 [26739, 29295, 116] (by decide) (by decide)).2.2
      (by decide) (by decide)
    simpa using h

/-- C2 (amended): encoding a fresh buffer lays out word 0 = byte length (for
lengths below 65536, the amendment the as u16 cast forces), word 1+k = bytes
2k and 2k+1 packed little-endian for every full pair, the last byte alone in
the final used word when the length is odd, and zero in every word past the
consumed input. -/
theorem c2_encode_layout (n : Nat) (s : List Nat) (hn : 1 ≤ n)
    (_hb : ∀ b ∈ s, b < 256) (hlen : s.length ≤ 2 * (n - 1)) (hsmall : s.length < 65536) :
    ((StringSer.encode n (List.replicate n 0) s).2.getD 0 0 = s.length) ∧
    (∀ k, 2 * k + 1 < s.length →
      (StringSer.encode n (List.replicate n 0) s).2.getD (1 + k) 0
        = s.getD (2 * k) 0 + 256 * s.getD (2 * k + 1) 0) ∧
    (s.length % 2 = 1 →
      (StringSer.encode n (List.replicate n 0) s).2.getD (1 + s.length / 2) 0
        = s.getD (s.length - 1) 0) ∧
    (∀ i, 1 + (s.length + 1) / 2 ≤ i →
      (StringSer.encode n (List.replicate n 0) s).2.getD i 0 = 0) := by
  obtain ⟨n', rfl⟩ : ∃ n', n = n' + 1 := ⟨n - 1, by omega⟩
  have hlen' : s.length ≤ 2 * n' := by omega
  have henc := encode_fresh n' s hlen'
  have hmod : s.length % 65536 = s.length := Nat.mod_eq_of_lt hsmall
  rw [henc, hmod]
  have hT : fillLoop (List.replicate n' 0) s
      = packLE s ++ List.replicate (n' - (s.length + 1) / 2) 0 :=
    fillLoop_replicate s n' (by omega)
  have hpl : (packLE s).length = (s.length + 1) / 2 := packLE_length s
  refine ⟨by simp, ?_, ?_, ?_⟩
  · intro k hk
    have hcomm : 1 + k = k + 1 := by omega
    rw [hcomm]
    show (fillLoop (List.replicate n' 0) s).getD k 0 = _
    rw [hT, getD_append_left0 _ _ k (by omega)]
    exact packLE_getD_pair s k hk
  · intro hodd
    have hcomm : 1 + s.length / 2 = s.length / 2 + 1 := by omega
    rw [hcomm]
    show (fillLoop (List.replicate n' 0) s).getD (s.length / 2) 0 = _
    rw [hT, getD_append_left0 _ _ _ (by omega)]
    exact packLE_getD_last s hodd
  · intro i hi
    obtain ⟨j, rfl⟩ : ∃ j, i = j + 1 := ⟨i - 1, by omega⟩
    show (fillLoop (List.replicate n' 0) s).getD j 0 = 0
    rw [hT, getD_append_right0 _ _ j (by omega)]
    exact getD_replicate_zero _ _

/-- Witness for C2: the layout theorem applied at capacity 4 to the 5-byte
string short, whose encoding is [5, 26739, 29295, 116], i.e.
[5, le16 of s and h, le16 of o and r, le16 of t and 0]. -/
theorem c2_encode_layout_witness :
    (StringSer.encode 4 (List.replicate 4 0) [115, 104, 111, 114, 116]).2
      = [5, 26739, 29295, 116] ∧
    (StringSer.encode 4 (List.replicate 4 0) [115, 104, 111, 114, 116]).2.getD 0 0
      = ([115, 104, 111, 114, 116] : List Nat).length ∧
    (StringSer.encode 4 (List.replicate 4 0) [115, 104, 111, 114, 116]).2.getD (1 + 1) 0
      = ([115, 104, 111, 114, 116] : List Nat).getD (2 * 1) 0
        + 256 * ([115, 104, 111, 114, 116] : List Nat).getD (2 * 1 + 1) 0 ∧
    (StringSer.encode 4 (List.replicate 4 0) [115, 104, 111, 114, 116]).2.getD
        (1 + ([115, 104, 111, 114, 116] : List Nat).length / 2) 0
      = ([115, 104, 111, 114, 116] : List Nat).getD
          (([115, 104, 111, 114, 116] : List Nat).length - 1) 0 ∧
    (StringSer.encode 4 (List.replicate 4 0) [115, 104, 111, 114, 116]).2.getD 9 0 = 0 :=
  ⟨by rfl,
   (c2_encode_layout 4 [115, 104, 111, 114, 116] (by decide) (by decide)
      (by decide) (by decide)).1,
   (c2_encode_layout 4 [115, 104, 111, 114, 116] (by decide) (by decide)
      (by decide) (by decide)).2.1 1 (by decide),
   (c2_encode_layout 4 [115, 104, 111, 114, 116] (by decide) (by decide)
      (by decide) (by decide)).2.2.1 (by decide),
   (c2_encode_layout 4 [115, 104, 111, 114, 116] (by decide) (by decide)
      (by decide) (by decide)).2.2.2 9 (by decide)⟩

/-- A pure ASCII byte sequence is valid UTF-8. -/
theorem isValidUtf8_ascii : ∀ l : List Nat, (∀ b ∈ l, b ≤ 127) → isValidUtf8 l = true
  | [], _ => rfl
  | b :: rest, h => by
    have hb : b ≤ 127 := h b (by simp)
    have ih := isValidUtf8_ascii rest (fun x hx => h x (by simp [hx]))
    show utf8Aux 0 0 0 (b :: rest) = true
    rw [utf8Aux.eq_def]
    exact (if_pos hb).trans ih

/-- Counterexample to C1 as stated: with U16_LEN = 32769 the valid 65536-byte
ASCII string of letter a has byte length 2*(U16_LEN-1), yet its length word
is written as 65536 % 65536 = 0, so decode returns Ok of the empty string,
not the original. -/
theorem c1_truncation_cex :
    isValidUtf8 (List.replicate 65536 97) = true ∧
    (List.replicate 65536 97 : List Nat).length ≤ 2 * (32769 - 1) ∧
    (StringSer.encode 32769 (List.replicate 32769 0) (List.replicate 65536 97)).1
      = Except.ok
        ((StringSer.encode 32769 (List.replicate 32769 0) (List.replicate 65536 97)).2) ∧
    StringDes.decode_u16 32769 (2 * (32769 - 1))
      ((StringSer.encode 32769 (List.replicate 32769 0) (List.replicate 65536 97)).2)
      ≠ Except.ok (List.replicate 65536 97) := by
  have hvalid : isValidUtf8 (List.replicate 65536 97) = true :=
    isValidUtf8_ascii _ (by
      intro b hb
      have hbe := List.eq_of_mem_replicate hb
      omega)
  have h32 : (32769 : Nat) = 32768 + 1 := by norm_num
  have henc := encode_fresh 32768 (List.replicate 65536 97)
    (by rw [List.length_replicate])
  have hmod0 : (List.replicate 65536 97 : List Nat).length % 65536 = 0 := by
    rw [List.length_replicate]
  refine ⟨hvalid, by rw [List.length_replicate], ?_, ?_⟩
  · rw [h32, henc]
  · rw [h32, henc]
    show StringDes.decode_u16 (32768 + 1) (2 * (32768 + 1 - 1))
        ((List.replicate 65536 97 : List Nat).length % 65536
          :: fillLoop (List.replicate 32768 0) (List.replicate 65536 97))
        ≠ Except.ok (List.replicate 65536 97)
    rw [hmod0]
    have hdec : StringDes.decode_u16 (32768 + 1) (2 * (32768 + 1 - 1))
        (0 :: fillLoop (List.replicate 32768 0) (List.replicate 65536 97))
        = Except.ok [] := by
      show (if 0 ≤ 2 * (32768 + 1 - 1) then
          StringDes.as_str (32768 + 1) 0
            (unpackLoop (2 * (32768 + 1 - 1))
              (fillLoop (List.replicate 32768 0) (List.replicate 65536 97)))
        else Except.error SerdesError.StrLenTooBig) = Except.ok []
      rw [if_pos (by omega)]
      unfold StringDes.as_str
      rw [if_neg (by omega), List.take_zero]
      exact if_pos rfl
    rw [hdec]
    intro hEq
    have hinj := Except.ok.inj hEq
    have hlen := congrArg List.length hinj
    rw [List.length_nil, List.length_replicate] at hlen
    omega

/-- Counterexample to C2 as stated: at U16_LEN = 32769 with the valid
65536-byte input, word 0 of the encoding is 0, not the byte length. -/
theorem c2_truncation_cex :
    isValidUtf8 (List.replicate 65536 97) = true ∧
    (List.replicate 65536 97 : List Nat).length ≤ 2 * (32769 - 1) ∧
    (StringSer.encode 32769 (List.replicate 32769 0) (List.replicate 65536 97)).2.getD 0 0
      ≠ (List.replicate 65536 97 : List Nat).length := by
  have hvalid : isValidUtf8 (List.replicate 65536 97) = true :=
    isValidUtf8_ascii _ (by
      intro b hb
      have hbe := List.eq_of_mem_replicate hb
      omega)
  have h32 : (32769 : Nat) = 32768 + 1 := by norm_num
  have henc := encode_fresh 32768 (List.replicate 65536 97)
    (by rw [List.length_replicate])
  refine ⟨hvalid, by rw [List.length_replicate], ?_⟩
  rw [h32, henc]
  show ((List.replicate 65536 97 : List Nat).length % 65536
      :: fillLoop (List.replicate 32768 0) (List.replicate 65536 97)).getD 0 0
      ≠ (List.replicate 65536 97 : List Nat).length
  rw [List.getD_cons_zero, List.length_replicate]
  omega

/-- C7: over the complete set of ComSpec constants in ComState, no two distinct
constants share a verb code, the constants with response = true are exactly
FLASH_ACK, STAT_RETURN and ERROR, and every response constant has w_words = 0. -/
theorem c7_verb_registry_unique_and_responses_writeless :
    (comStateSpecs.map ComSpec.verb).Nodup ∧
    ((comStateSpecs.filter (fun c => c.response)).map ComSpec.verb
      = [0x3CC3, 0x8001, 0xDEAD]) ∧
    comStateSpecs.all (fun c => !c.response || c.w_words == 0) = true := by
  refine ⟨by decide, by decide, by decide⟩

/-- C9: every NET_FRAME_* constant has its verb in 0xC000..0xCFFF, every
NET_FRAME_FETCH_* constant has r_words = verb &&& 0x7FF, and every
NET_FRAME_SEND_* constant has w_words = verb &&& 0x7FF. -/
theorem c9_net_frame_low_bits_encode_count :
    ((netFrameFetchSpecs ++ netFrameSendSpecs).all
      (fun c => decide (0xC000 ≤ c.verb) && decide (c.verb ≤ 0xCFFF)) = true) ∧
    (netFrameFetchSpecs.all (fun c => c.r_words == c.verb &&& 0x7FF) = true) ∧
    (netFrameSendSpecs.all (fun c => c.w_words == c.verb &&& 0x7FF) = true) := by
  refine ⟨by decide, by decide, by decide⟩

/-- C8: the status decoders are total: each known wire integer maps to its
named variant and every unrecognized integer maps to the designated fallback
(Unknown for LinkState, Pending for ConnectResult, Invalid for DhcpState). -/
theorem c8_status_decoders_never_fail :
    (LinkState.decode_u16 0 = LinkState.Unknown ∧
     LinkState.decode_u16 1 = LinkState.ResetHold ∧
     LinkState.decode_u16 2 = LinkState.Uninitialized ∧
     LinkState.decode_u16 3 = LinkState.Initializing ∧
     LinkState.decode_u16 4 = LinkState.Disconnected ∧
     LinkState.decode_u16 5 = LinkState.Connecting ∧
     LinkState.decode_u16 6 = LinkState.Connected ∧
     LinkState.decode_u16 7 = LinkState.WFXError) ∧
    (∀ n : Nat, 7 < n → LinkState.decode_u16 n = LinkState.Unknown) ∧
    (ConnectResult.decode_u16 0 = ConnectResult.Success ∧
     ConnectResult.decode_u16 1 = ConnectResult.NoMatchingAp ∧
     ConnectResult.decode_u16 2 = ConnectResult.Timeout ∧
     ConnectResult.decode_u16 3 = ConnectResult.Reject ∧
     ConnectResult.decode_u16 4 = ConnectResult.AuthFail ∧
     ConnectResult.decode_u16 5 = ConnectResult.Error ∧
     ConnectResult.decode_u16 6 = ConnectResult.Pending ∧
     ConnectResult.decode_u16 7 = ConnectResult.Aborted) ∧
    (∀ n : Nat, 7 < n → ConnectResult.decode_u16 n = ConnectResult.Pending) ∧
    (Ipv4Conf.decodeDhcp 0 = DhcpState.Halted ∧
     Ipv4Conf.decodeDhcp 1 = DhcpState.Init ∧
     Ipv4Conf.decodeDhcp 2 = DhcpState.Selecting ∧
     Ipv4Conf.decodeDhcp 3 = DhcpState.Requesting ∧
     Ipv4Conf.decodeDhcp 4 = DhcpState.Bound ∧
     Ipv4Conf.decodeDhcp 5 = DhcpState.Renewing ∧
     Ipv4Conf.decodeDhcp 6 = DhcpState.Rebinding ∧
     Ipv4Conf.decodeDhcp 7 = DhcpState.Invalid) ∧
    (∀ n : Nat, 7 < n → Ipv4Conf.decodeDhcp n = DhcpState.Invalid) := by
  refine ⟨by decide, ?_, by decide, ?_, by decide, ?_⟩
  · intro n hn
    obtain ⟨m, rfl⟩ : ∃ m, n = m + 8 := ⟨n - 8, by omega⟩
    rfl
  · intro n hn
    obtain ⟨m, rfl⟩ : ∃ m, n = m + 8 := ⟨n - 8, by omega⟩
    rfl
  · intro n hn
    obtain ⟨m, rfl⟩ : ∃ m, n = m + 8 := ⟨n - 8, by omega⟩
    rfl

/-- Witness for C8: the fallback clauses applied at the concrete out-of-range
input 40000. -/
theorem c8_status_decoders_never_fail_witness :
    LinkState.decode_u16 40000 = LinkState.Unknown ∧
    ConnectResult.decode_u16 40000 = ConnectResult.Pending ∧
    Ipv4Conf.decodeDhcp 40000 = DhcpState.Invalid :=
  ⟨c8_status_decoders_never_fail.2.1 40000 (by decide),
   c8_status_decoders_never_fail.2.2.2.1 40000 (by decide),
   c8_status_decoders_never_fail.2.2.2.2.2 40000 (by decide)⟩

/-- C10: the fallback variants are themselves legitimate wire values: every
integer outside the set of named ConnectResult codes other than 6 decodes to
Pending, exactly as the genuine wire value 6 does; every integer above 7
decodes to LinkState.Unknown, exactly as the genuine wire value 0 does. -/
theorem c10_fallbacks_indistinguishable :
    (∀ n : Nat, n = 6 ∨ 7 < n → ConnectResult.decode_u16 n = ConnectResult.Pending) ∧
    ConnectResult.decode_u16 6 = ConnectResult.Pending ∧
    (∀ n : Nat, 7 < n →
      LinkState.decode_u16 n = LinkState.Unknown ∧
      LinkState.decode_u16 n = LinkState.decode_u16 0) := by
  refine ⟨?_, by decide, ?_⟩
  · intro n hn
    rcases hn with rfl | hn
    · rfl
    · obtain ⟨m, rfl⟩ : ∃ m, n = m + 8 := ⟨n - 8, by omega⟩
      rfl
  · intro n hn
    obtain ⟨m, rfl⟩ : ∃ m, n = m + 8 := ⟨n - 8, by omega⟩
    exact ⟨rfl, rfl⟩

/-- Witness for C10: the ConnectResult fallback at the wire value 6 of Pending
itself and at the out-of-range value 1000, and the LinkState fallback at 1000. -/
theorem c10_fallbacks_indistinguishable_witness :
    ConnectResult.decode_u16 6 = ConnectResult.Pending ∧
    ConnectResult.decode_u16 1000 = ConnectResult.Pending ∧
    LinkState.decode_u16 1000 = LinkState.Unknown :=
  ⟨c10_fallbacks_indistinguishable.1 6 (Or.inl rfl),
   c10_fallbacks_indistinguishable.1 1000 (Or.inr (by decide)),
   (c10_fallbacks_indistinguishable.2.2 1000 (by decide)).1⟩

/-- C5: for every Ipv4Conf record (any DhcpState and any byte values),
decode_u16 of encode_u16 reproduces every field exactly. -/
theorem c5_ipv4_conf_roundtrip
    (d : DhcpState)
    (m0 m1 m2 m3 m4 m5 a0 a1 a2 a3 g0 g1 g2 g3 k0 k1 k2 k3
     p0 p1 p2 p3 q0 q1 q2 q3 : Nat)
    (hm0 : m0 < 256) (hm1 : m1 < 256) (hm2 : m2 < 256) (hm3 : m3 < 256)
    (hm4 : m4 < 256) (hm5 : m5 < 256)
    (ha0 : a0 < 256) (ha1 : a1 < 256) (ha2 : a2 < 256) (ha3 : a3 < 256)
    (hg0 : g0 < 256) (hg1 : g1 < 256) (hg2 : g2 < 256) (hg3 : g3 < 256)
    (hk0 : k0 < 256) (hk1 : k1 < 256) (hk2 : k2 < 256) (hk3 : k3 < 256)
    (hp0 : p0 < 256) (hp1 : p1 < 256) (hp2 : p2 < 256) (hp3 : p3 < 256)
    (hq0 : q0 < 256) (hq1 : q1 < 256) (hq2 : q2 < 256) (hq3 : q3 < 256) :
    Ipv4Conf.decode_u16 (Ipv4Conf.encode_u16
      ⟨d, [m0, m1, m2, m3, m4, m5], [a0, a1, a2, a3], [g0, g1, g2, g3],
       [k0, k1, k2, k3], [p0, p1, p2, p3], [q0, q1, q2, q3]⟩)
      = ⟨d, [m0, m1, m2, m3, m4, m5], [a0, a1, a2, a3], [g0, g1, g2, g3],
         [k0, k1, k2, k3], [p0, p1, p2, p3], [q0, q1, q2, q3]⟩ := by
  show Ipv4Conf.mk
      (Ipv4Conf.decodeDhcp d.toU16)
      [(m0 ||| m1 <<< 8) % 256, ((m0 ||| m1 <<< 8) >>> 8) % 256,
       (m2 ||| m3 <<< 8) % 256, ((m2 ||| m3 <<< 8) >>> 8) % 256,
       (m4 ||| m5 <<< 8) % 256, ((m4 ||| m5 <<< 8) >>> 8) % 256]
      [(a0 ||| a1 <<< 8) % 256, ((a0 ||| a1 <<< 8) >>> 8) % 256,
       (a2 ||| a3 <<< 8) % 256, ((a2 ||| a3 <<< 8) >>> 8) % 256]
      [(g0 ||| g1 <<< 8) % 256, ((g0 ||| g1 <<< 8) >>> 8) % 256,
       (g2 ||| g3 <<< 8) % 256, ((g2 ||| g3 <<< 8) >>> 8) % 256]
      [(k0 ||| k1 <<< 8) % 256, ((k0 ||| k1 <<< 8) >>> 8) % 256,
       (k2 ||| k3 <<< 8) % 256, ((k2 ||| k3 <<< 8) >>> 8) % 256]
      [(p0 ||| p1 <<< 8) % 256, ((p0 ||| p1 <<< 8) >>> 8) % 256,
       (p2 ||| p3 <<< 8) % 256, ((p2 ||| p3 <<< 8) >>> 8) % 256]
      [(q0 ||| q1 <<< 8) % 256, ((q0 ||| q1 <<< 8) >>> 8) % 256,
       (q2 ||| q3 <<< 8) % 256, ((q2 ||| q3 <<< 8) >>> 8) % 256]
      = Ipv4Conf.mk d [m0, m1, m2, m3, m4, m5] [a0, a1, a2, a3]
        [g0, g1, g2, g3] [k0, k1, k2, k3] [p0, p1, p2, p3] [q0, q1, q2, q3]
  rw [decodeDhcp_toU16 d,
    pack_mod_256 m0 m1 hm0, pack_shift_mod m0 m1 hm0 hm1,
    pack_mod_256 m2 m3 hm2, pack_shift_mod m2 m3 hm2 hm3,
    pack_mod_256 m4 m5 hm4, pack_shift_mod m4 m5 hm4 hm5,
    pack_mod_256 a0 a1 ha0, pack_shift_mod a0 a1 ha0 ha1,
    pack_mod_256 a2 a3 ha2, pack_shift_mod a2 a3 ha2 ha3,
    pack_mod_256 g0 g1 hg0, pack_shift_mod g0 g1 hg0 hg1,
    pack_mod_256 g2 g3 hg2, pack_shift_mod g2 g3 hg2 hg3,
    pack_mod_256 k0 k1 hk0, pack_shift_mod k0 k1 hk0 hk1,
    pack_mod_256 k2 k3 hk2, pack_shift_mod k2 k3 hk2 hk3,
    pack_mod_256 p0 p1 hp0, pack_shift_mod p0 p1 hp0 hp1,
    pack_mod_256 p2 p3 hp2, pack_shift_mod p2 p3 hp2 hp3,
    pack_mod_256 q0 q1 hq0, pack_shift_mod q0 q1 hq0 hq1,
    pack_mod_256 q2 q3 hq2, pack_shift_mod q2 q3 hq2 hq3]

/-- Witness for C5: the roundtrip theorem applied at a concrete record. -/
theorem c5_ipv4_conf_roundtrip_witness :
    Ipv4Conf.decode_u16 (Ipv4Conf.encode_u16
      ⟨DhcpState.Bound, [0x12, 0x34, 0x56, 0x78, 0x9A, 0xBC],
       [10, 0, 0, 255], [192, 168, 1, 254], [255, 255, 255, 0],
       [8, 8, 8, 8], [1, 1, 1, 1]⟩)
      = ⟨DhcpState.Bound, [0x12, 0x34, 0x56, 0x78, 0x9A, 0xBC],
         [10, 0, 0, 255], [192, 168, 1, 254], [255, 255, 255, 0],
         [8, 8, 8, 8], [1, 1, 1, 1]⟩ :=
  c5_ipv4_conf_roundtrip DhcpState.Bound
    0x12 0x34 0x56 0x78 0x9A 0xBC 10 0 0 255 192 168 1 254 255 255 255 0
    8 8 8 8 1 1 1 1
    (by decide) (by decide) (by decide) (by decide) (by decide) (by decide)
    (by decide) (by decide) (by decide) (by decide) (by decide) (by decide)
    (by decide) (by decide) (by decide) (by decide) (by decide) (by decide)
    (by decide) (by decide) (by decide) (by decide) (by decide) (by decide)
    (by decide) (by decide)

/-- C6: encode_u16 produces exactly WLAN_GET_IPV4_CONF.r_words = 14 words:
word 0 the DHCP discriminant, then the MAC in 3 words and each 4-byte field in
2 words, every word holding the lower-indexed byte in its low 8 bits. -/
theorem c6_ipv4_encode_layout
    (d : DhcpState)
    (m0 m1 m2 m3 m4 m5 a0 a1 a2 a3 g0 g1 g2 g3 k0 k1 k2 k3
     p0 p1 p2 p3 q0 q1 q2 q3 : Nat)
    (hm0 : m0 < 256) (hm2 : m2 < 256) (hm4 : m4 < 256)
    (ha0 : a0 < 256) (ha2 : a2 < 256)
    (hg0 : g0 < 256) (hg2 : g2 < 256)
    (hk0 : k0 < 256) (hk2 : k2 < 256)
    (hp0 : p0 < 256) (hp2 : p2 < 256)
    (hq0 : q0 < 256) (hq2 : q2 < 256) :
    (Ipv4Conf.encode_u16
      ⟨d, [m0, m1, m2, m3, m4, m5], [a0, a1, a2, a3], [g0, g1, g2, g3],
       [k0, k1, k2, k3], [p0, p1, p2, p3], [q0, q1, q2, q3]⟩).length
      = ComState.WLAN_GET_IPV4_CONF.r_words ∧
    ComState.WLAN_GET_IPV4_CONF.r_words = 14 ∧
    Ipv4Conf.encode_u16
      ⟨d, [m0, m1, m2, m3, m4, m5], [a0, a1, a2, a3], [g0, g1, g2, g3],
       [k0, k1, k2, k3], [p0, p1, p2, p3], [q0, q1, q2, q3]⟩
      = [d.toU16,
         m0 + 256 * m1, m2 + 256 * m3, m4 + 256 * m5,
         a0 + 256 * a1, a2 + 256 * a3,
         g0 + 256 * g1, g2 + 256 * g3,
         k0 + 256 * k1, k2 + 256 * k3,
         p0 + 256 * p1, p2 + 256 * p3,
         q0 + 256 * q1, q2 + 256 * q3] := by
  refine ⟨rfl, rfl, ?_⟩
  show [d.toU16,
        m0 ||| m1 <<< 8, m2 ||| m3 <<< 8, m4 ||| m5 <<< 8,
        a0 ||| a1 <<< 8, a2 ||| a3 <<< 8,
        g0 ||| g1 <<< 8, g2 ||| g3 <<< 8,
        k0 ||| k1 <<< 8, k2 ||| k3 <<< 8,
        p0 ||| p1 <<< 8, p2 ||| p3 <<< 8,
        q0 ||| q1 <<< 8, q2 ||| q3 <<< 8] = _
  rw [pack_le_eq m0 m1 hm0, pack_le_eq m2 m3 hm2, pack_le_eq m4 m5 hm4,
    pack_le_eq a0 a1 ha0, pack_le_eq a2 a3 ha2,
    pack_le_eq g0 g1 hg0, pack_le_eq g2 g3 hg2,
    pack_le_eq k0 k1 hk0, pack_le_eq k2 k3 hk2,
    pack_le_eq p0 p1 hp0, pack_le_eq p2 p3 hp2,
    pack_le_eq q0 q1 hq0, pack_le_eq q2 q3 hq2]

/-- Witness for C6: the layout theorem applied at a concrete record. -/
theorem c6_ipv4_encode_layout_witness :
    (Ipv4Conf.encode_u16
      ⟨DhcpState.Renewing, [1, 2, 3, 4, 5, 6], [10, 20, 30, 40],
       [50, 60, 70, 80], [255, 255, 0, 0], [9, 9, 9, 9], [4, 4, 4, 4]⟩).length
      = ComState.WLAN_GET_IPV4_CONF.r_words ∧
    ComState.WLAN_GET_IPV4_CONF.r_words = 14 ∧
    Ipv4Conf.encode_u16
      ⟨DhcpState.Renewing, [1, 2, 3, 4, 5, 6], [10, 20, 30, 40],
       [50, 60, 70, 80], [255, 255, 0, 0], [9, 9, 9, 9], [4, 4, 4, 4]⟩
      = [DhcpState.Renewing.toU16,
         1 + 256 * 2, 3 + 256 * 4, 5 + 256 * 6,
         10 + 256 * 20, 30 + 256 * 40,
         50 + 256 * 60, 70 + 256 * 80,
         255 + 256 * 255, 0 + 256 * 0,
         9 + 256 * 9, 9 + 256 * 9,
         4 + 256 * 4, 4 + 256 * 4] :=
  c6_ipv4_encode_layout DhcpState.Renewing
    1 2 3 4 5 6 10 20 30 40 50 60 70 80 255 255 0 0 9 9 9 9 4 4 4 4
    (by decide) (by decide) (by decide) (by decide) (by decide) (by decide)
    (by decide) (by decide) (by decide) (by decide) (by decide) (by decide)
    (by decide)

